import Mathlib

/-!
Verification development for the weather-data ingestion and aggregation
pipeline (modules `ingest_data`, `models`, `weather_statistics`).

The embedding follows the source:
- `parse_weather_data` mirrors `ingest_data.parse_weather_data`: one cleaned
  record per input line, date decoded with the fixed `YYYYMMDD` layout and
  coerced to `none` on failure (pandas `errors` set to coerce), the sentinel
  `-9999` replaced by `none` before unit scaling, every other numeric value
  divided by 10, and the station id taken from the file name up to the first
  dot (Python `split` on the dot, index 0).
- The persisted `weather_data` table (`models.WeatherData`) is a list of
  `StoredRow` whose `(station_id, date)` pair carries a UNIQUE constraint; a
  key conflict surfaces as an IntegrityError.  A record whose date failed to
  parse reaches the gateway as pandas NaT; NaT subclasses datetime, so it is
  adapted as a datetime and rendered as the invalid literal string NaT, and
  the database rejects the INSERT with a DataError.  `loadRecords` mirrors
  the per-record loop of `ingest_data.ingest_data`: only IntegrityError is
  caught (rollback, duplicate counter bumped); the DataError is not caught,
  so it aborts the run, the store keeping the rows committed before it.
- `weather_statistics.calculate_statistics` is embedded with SQL aggregate
  semantics for AVG and SUM (nulls ignored, null on an empty set of non-null
  inputs), grouping by station id and the year of the date, a session whose
  adds stay pending until one final commit, and a rollback handler for any
  exception raised before or at the commit.
-/

namespace WeatherPipeline

/-- One raw tab-separated line of a source file: the date field as read from
the text, and the three numeric fields in tenths of a unit. -/
structure RawLine where
  dateField : String
  maxTemp : Int
  minTemp : Int
  precip : Int
deriving DecidableEq, Repr

/-- A source file: its base name and its lines. -/
structure SourceFile where
  name : String
  lines : List RawLine
deriving DecidableEq, Repr

/-- A calendar date as decoded from an 8-digit `YYYYMMDD` field. -/
structure CalDate where
  y : Nat
  m : Nat
  d : Nat
deriving DecidableEq, Repr

/-- Gregorian leap-year rule, as used by the `YYYYMMDD` date decoding. -/
def isLeapYear (y : Nat) : Bool :=
  (y % 4 == 0 && y % 100 != 0) || (y % 400 == 0)

/-- Number of days in a month of a given year. -/
def daysInMonth (y m : Nat) : Nat :=
  if m = 2 then (if isLeapYear y then 29 else 28)
  else if m = 4 ∨ m = 6 ∨ m = 9 ∨ m = 11 then 30 else 31

/-- Decimal value of a list of digit characters. -/
def digitsToNat (cs : List Char) : Nat :=
  cs.foldl (fun a c => 10 * a + (c.toNat - 48)) 0

/-- Decode a raw date field with the fixed 8-digit `YYYYMMDD` layout, the
format used by the parser; any value that is not 8 digits forming a valid
calendar date yields `none` (the embedded form of coercion to NaT). -/
def parseYYYYMMDD (s : String) : Option CalDate :=
  let cs := s.toList
  if cs.length = 8 ∧ cs.all Char.isDigit then
    let y := digitsToNat (cs.take 4)
    let m := digitsToNat ((cs.drop 4).take 2)
    let d := digitsToNat (cs.drop 6)
    if 1 ≤ m ∧ m ≤ 12 ∧ 1 ≤ d ∧ d ≤ daysInMonth y m then some ⟨y, m, d⟩
    else none
  else none

/-- Station identifier extracted from a file name: the characters before the
first dot, as in the Python split of the base name on the dot at index 0. -/
def stationId (name : String) : String :=
  String.mk (name.toList.takeWhile (fun c => c ≠ '.'))

/-- A cleaned observation record as emitted by the parser: nullable date and
nullable numeric fields. -/
structure Record where
  station_id : String
  date : Option CalDate
  max_temp : Option ℚ
  min_temp : Option ℚ
  precipitation : Option ℚ
deriving DecidableEq, Repr

/-- The sentinel replacement step of the parser: raw value `-9999` becomes
null, every other raw value is kept. -/
def replaceSentinel (v : Int) : Option Int :=
  if v = -9999 then none else some v

/-- The unit-scaling step of the parser: a non-null raw value is divided by
10, null stays null. -/
def scaleTenths (o : Option Int) : Option ℚ :=
  o.map (fun v => (v : ℚ) / 10)

/-- Clean one raw line into a record for a given station id, composing the
sentinel replacement, the date decoding and the unit scaling exactly as the
parser does column by column. -/
def cleanLine (station : String) (l : RawLine) : Record :=
  { station_id := station
    date := parseYYYYMMDD l.dateField
    max_temp := scaleTenths (replaceSentinel l.maxTemp)
    min_temp := scaleTenths (replaceSentinel l.minTemp)
    precipitation := scaleTenths (replaceSentinel l.precip) }

/-- Parse and clean one source file: one record per line, in line order, the
station id taken from the file name. -/
def parse_weather_data (f : SourceFile) : List Record :=
  f.lines.map (cleanLine (stationId f.name))

/-- A persisted row of the `weather_data` table: the date column is NOT NULL,
the numeric columns are nullable. -/
structure StoredRow where
  station_id : String
  date : CalDate
  max_temp : Option ℚ
  min_temp : Option ℚ
  precipitation : Option ℚ
deriving DecidableEq, Repr

/-- The persisted `weather_data` table. -/
abbrev Store := List StoredRow

/-- The `(station_id, date)` uniqueness key of the `weather_data` table holds
a given pair. -/
def keyMem (s : Store) (sid : String) (d : CalDate) : Prop :=
  ∃ row ∈ s, row.station_id = sid ∧ row.date = d

instance (s : Store) (sid : String) (d : CalDate) : Decidable (keyMem s sid d) :=
  List.decidableBEx _ s

/-- The stored row produced from a record with a non-null date. -/
def toStoredRow (r : Record) (d : CalDate) : StoredRow :=
  ⟨r.station_id, d, r.max_temp, r.min_temp, r.precipitation⟩

/-- Outcome surfaced by the persistence gateway for one insert attempt: a
successful commit with the new store, an integrity-error conflict, or any
other (fatal) persistence failure, such as a DataError on an invalid bound
value or a lost connection. -/
inductive DbResult where
  | ok (s : Store)
  | integrityError
  | fatal (msg : String)
deriving DecidableEq, Repr

/-- The body of the per-record try block of `ingest_data` applied to one
gateway outcome: a commit bumps the ingested counter; an integrity error is
caught, the transaction rolled back (store unchanged) and the duplicate
counter bumped; any other failure is not caught and propagates. -/
def loadStep (st : Store) (ing dup : Nat) : DbResult → Except String (Store × Nat × Nat)
  | .ok s2 => .ok (s2, ing + 1, dup)
  | .integrityError => .ok (st, ing, dup + 1)
  | .fatal msg => .error msg

/-- The gateway outcome of one insert attempt when the store is reachable.  A
record whose date is null reaches the gateway as pandas NaT; NaT subclasses
datetime, so the driver adapts it as a datetime and binds the invalid literal
string NaT, and the database rejects the INSERT with a DataError — a fatal
outcome, not an integrity error (the NOT NULL constraint of the date column
never gets to fire).  A record whose `(station_id, date)` key is already
stored violates the UNIQUE constraint, an integrity error; any other record
is committed as a new row. -/
def dbAttempt (s : Store) (r : Record) : DbResult :=
  match r.date with
  | none => .fatal "DataError"
  | some d =>
    if keyMem s r.station_id d then .integrityError
    else .ok (s ++ [toStoredRow r d])

/-- The per-record loading loop of `ingest_data`: each record is added and
committed; only an integrity error is caught (transaction rolled back, store
unchanged, duplicate counter bumped); a commit keeps the new store and bumps
the ingested counter; a fatal outcome — the DataError of a null date —
propagates out of the loop uncaught, the store keeping the rows committed
before it and the failing record counted by neither counter. -/
def loadRecords : Store → Nat → Nat → List Record → Except (String × Store) (Store × Nat × Nat)
  | s, ing, dup, [] => .ok (s, ing, dup)
  | s, ing, dup, r :: rs =>
    match dbAttempt s r with
    | .ok s2 => loadRecords s2 (ing + 1) dup rs
    | .integrityError => loadRecords s ing (dup + 1) rs
    | .fatal msg => .error (msg, s)

/-- Ingest one file: parse it and feed every emitted record to the loader,
starting the per-file counters at zero. -/
def ingestFile (s : Store) (f : SourceFile) : Except (String × Store) (Store × Nat × Nat) :=
  loadRecords s 0 0 (parse_weather_data f)

/-- Accumulate one file's counter pair into the outcome of the rest of a run:
totals are summed on completion, an abort passes through. -/
def accumulate (c d : Nat) :
    Except (String × Store) (Store × Nat × Nat) → Except (String × Store) (Store × Nat × Nat)
  | .ok (s2, tc, td) => .ok (s2, c + tc, d + td)
  | .error e => .error e

/-- The file loop of `ingest_data` over readable files: files processed in
order, per-file counts accumulated into the run totals; an uncaught exception
inside one file aborts the whole run, leaving the rows committed so far. -/
def runFiles : Store → List SourceFile → Except (String × Store) (Store × Nat × Nat)
  | s, [] => .ok (s, 0, 0)
  | s, f :: fs =>
    match ingestFile s f with
    | .error e => .error e
    | .ok (s1, c, d) => accumulate c d (runFiles s1 fs)

/-- The per-file `(ingested, duplicate)` counter pairs logged along a run, in
file order, against the evolving store; a file that aborts the run never
reaches its log line, so it contributes no pair. -/
def fileCounts : Store → List SourceFile → List (Nat × Nat)
  | _, [] => []
  | s, f :: fs =>
    match ingestFile s f with
    | .ok (s1, c, d) => (c, d) :: fileCounts s1 fs
    | .error _ => []

/-- A file input of an ingestion run: either the file reads and parses, or
reading it raises an exception (the CSV reader failing on the file). -/
inductive FileInput where
  | good (f : SourceFile)
  | bad (name : String)
deriving DecidableEq, Repr

/-- Reading one file input: a bad file raises. -/
def readFile : FileInput → Except String SourceFile
  | .good f => .ok f
  | .bad name => .error name

/-- Whether a file input reads without raising. -/
def FileInput.readsOk : FileInput → Prop
  | .good _ => True
  | .bad _ => False

instance (i : FileInput) : Decidable i.readsOk :=
  match i with
  | .good _ => isTrue trivial
  | .bad _ => isFalse id

/-- The underlying source file of a good input. -/
def FileInput.file : FileInput → SourceFile
  | .good f => f
  | .bad name => ⟨name, []⟩

/-- The file loop of `ingest_data` with fallible file reading: the loop body
has no exception handler of its own, so an exception raised while reading one
file — like the uncaught fatal errors raised while loading its records —
propagates and aborts the whole run. -/
def ingest_data_run : Store → List FileInput → Except (String × Store) (Store × Nat × Nat)
  | s, [] => .ok (s, 0, 0)
  | s, i :: rest =>
    match readFile i with
    | .error e => .error (e, s)
    | .ok f =>
      match ingestFile s f with
      | .error e => .error e
      | .ok (s1, c, d) => accumulate c d (ingest_data_run s1 rest)

/-- A derived statistics row of the `weather_statistics` table; the table has
no uniqueness constraint. -/
structure StatRow where
  year : Nat
  station_id : String
  avg_max_temp : Option ℚ
  avg_min_temp : Option ℚ
  total_precipitation : Option ℚ
deriving DecidableEq, Repr

/-- SQL AVG over a column of nullable values: nulls are ignored; the result
is null exactly when no non-null value remains. -/
def sqlAvg (vs : List (Option ℚ)) : Option ℚ :=
  let xs := vs.filterMap id
  if xs = [] then none else some (xs.sum / xs.length)

/-- SQL SUM over a column of nullable values: nulls are ignored; the result
is null exactly when no non-null value remains. -/
def sqlSum (vs : List (Option ℚ)) : Option ℚ :=
  let xs := vs.filterMap id
  if xs = [] then none else some xs.sum

/-- The grouping key of the statistics query: station id and year of the
date. -/
def rowKey (row : StoredRow) : String × Nat :=
  (row.station_id, row.date.y)

/-- The distinct `(station_id, year)` group keys of the store, one per group
of the GROUP BY clause. -/
def groupKeys (s : Store) : List (String × Nat) :=
  (s.map rowKey).dedup

/-- The rows of the store belonging to one group key. -/
def groupRows (s : Store) (k : String × Nat) : List StoredRow :=
  s.filter (fun row => rowKey row = k)

/-- The statistics row the query produces for one group: AVG of the two
temperature columns and SUM of the precipitation column over the group. -/
def mkStatRow (s : Store) (k : String × Nat) : StatRow :=
  { year := k.2
    station_id := k.1
    avg_max_temp := sqlAvg ((groupRows s k).map (fun row => row.max_temp))
    avg_min_temp := sqlAvg ((groupRows s k).map (fun row => row.min_temp))
    total_precipitation := sqlSum ((groupRows s k).map (fun row => row.precipitation)) }

/-- The full result set of the statistics query: one row per group key. -/
def computeStats (s : Store) : List StatRow :=
  (groupKeys s).map (mkStatRow s)

/-- The key of a statistics row. -/
def statKey (row : StatRow) : String × Nat :=
  (row.station_id, row.year)

/-- The statistics session: rows already committed to the
`weather_statistics` table and rows added but still pending. -/
structure StatSession where
  committed : List StatRow
  pending : List StatRow
deriving DecidableEq, Repr

/-- Adding one row to the session leaves it pending. -/
def sessionAdd (s : StatSession) (row : StatRow) : StatSession :=
  { s with pending := s.pending ++ [row] }

/-- Committing the session persists every pending row. -/
def sessionCommit (s : StatSession) : StatSession :=
  { committed := s.committed ++ s.pending, pending := [] }

/-- Rolling back the session discards every pending row and leaves the
committed rows as they are. -/
def sessionRollback (s : StatSession) : StatSession :=
  { s with pending := [] }

/-- Adding the query results to the session one by one, with an optional
fault: a fault at index `k` smaller than the number of rows raises after the
first `k` rows were added, carrying the session state at the raise. -/
def addRows (sess : StatSession) (rows : List StatRow) (fault : Option Nat) :
    Except StatSession StatSession :=
  match fault with
  | none => .ok (rows.foldl sessionAdd sess)
  | some k =>
    if k < rows.length then .error ((rows.take k).foldl sessionAdd sess)
    else .ok (rows.foldl sessionAdd sess)

/-- The statistics run of `weather_statistics.calculate_statistics`: compute
the query results over the observations, add them all to the session, then
commit once; any exception raised while computing or adding (`fault`) or at
the commit (`commitFault`) is caught by the handler, which rolls the session
back.  The observation store is only read. -/
def calculate_statistics (obs : Store) (sess : StatSession) (fault : Option Nat)
    (commitFault : Bool) : Store × StatSession :=
  let rows := computeStats obs
  match addRows sess rows fault with
  | .error s => (obs, sessionRollback s)
  | .ok s => if commitFault then (obs, sessionRollback s) else (obs, sessionCommit s)


/-! Concrete inputs used by witnesses and counterexamples. -/

/-- A line with a valid date and sentinel numeric values. -/
def lGood : RawLine := ⟨"20030101", -9999, -9999, -9999⟩

/-- A line whose date field is not a valid `YYYYMMDD` value. -/
def lBad : RawLine := ⟨"2003XX01", -9999, -9999, -9999⟩

/-- A line with a valid date and the numeric values of the end-to-end
scenario. -/
def lVals : RawLine := ⟨"20030101", 211, -9999, 5⟩

/-- A file whose two lines carry the same `(station_id, date)` key. -/
def fDup : SourceFile := ⟨"ST.txt", [lGood, lGood]⟩

/-- A file with one invalid-date line and one valid line. -/
def fMix : SourceFile := ⟨"ST.txt", [lBad, lGood]⟩

/-- A file with one valid line followed by one invalid-date line. -/
def fMix2 : SourceFile := ⟨"ST.txt", [lGood, lBad]⟩

/-- A one-line file with a valid date, at a station of its own. -/
def fOne : SourceFile := ⟨"ST1.txt", [lGood]⟩

/-- A one-line file with real numeric values. -/
def fVals : SourceFile := ⟨"USC00111280.txt", [lVals]⟩

/-- A store with one station-year group whose max-temp column is
`[20, null, 30]` and whose precipitation column is all null. -/
def obs0 : Store :=
  [⟨"S", ⟨2000, 1, 1⟩, some 20, none, none⟩,
   ⟨"S", ⟨2000, 1, 2⟩, none, none, none⟩,
   ⟨"S", ⟨2000, 1, 3⟩, some 30, none, none⟩]

/-- The max-temp column of one station-year group. -/
def maxCol (obs : Store) (k : String × Nat) : List (Option ℚ) :=
  (groupRows obs k).map (fun r => r.max_temp)

/-- The min-temp column of one station-year group. -/
def minCol (obs : Store) (k : String × Nat) : List (Option ℚ) :=
  (groupRows obs k).map (fun r => r.min_temp)

/-- The precipitation column of one station-year group. -/
def precipCol (obs : Store) (k : String × Nat) : List (Option ℚ) :=
  (groupRows obs k).map (fun r => r.precipitation)

/-! Helper lemmas about the parser and the loader. -/

/-- The composed numeric cleaning of one field: sentinel to null, otherwise
divide by 10. -/
theorem scaleTenths_replaceSentinel (v : Int) :
    scaleTenths (replaceSentinel v) =
      if v = -9999 then none else some ((v : ℚ) / 10) := by
  unfold replaceSentinel scaleTenths
  split <;> simp

/-- Inversion of a committed insert: the record had a fresh non-null date and
exactly one row built from it was appended. -/
theorem dbAttempt_eq_ok {s : Store} {r : Record} {s2 : Store}
    (h : dbAttempt s r = DbResult.ok s2) :
    ∃ d, r.date = some d ∧ ¬ keyMem s r.station_id d ∧
      s2 = s ++ [toStoredRow r d] := by
  unfold dbAttempt at h
  cases hd : r.date with
  | none => rw [hd] at h; cases h
  | some d =>
    rw [hd] at h
    by_cases hk : keyMem s r.station_id d
    · simp [hk] at h
    · simp [hk] at h
      exact ⟨d, rfl, hk, h.symm⟩

/-- A record whose key is already stored hits the UNIQUE constraint. -/
theorem dbAttempt_eq_integrityError {s : Store} {r : Record} {d : CalDate}
    (hd : r.date = some d) (hk : keyMem s r.station_id d) :
    dbAttempt s r = DbResult.integrityError := by
  unfold dbAttempt
  rw [hd]
  simp [hk]

/-- A record with a null date makes the insert attempt fatal. -/
theorem dbAttempt_eq_fatal {s : Store} {r : Record} (hd : r.date = none) :
    dbAttempt s r = DbResult.fatal "DataError" := by
  unfold dbAttempt
  rw [hd]

/-- A fatal insert attempt can only come from a null date. -/
theorem dbAttempt_fatal_inv {s : Store} {r : Record} {msg : String}
    (h : dbAttempt s r = DbResult.fatal msg) : r.date = none := by
  unfold dbAttempt at h
  cases hd : r.date with
  | none => rfl
  | some d =>
    rw [hd] at h
    by_cases hk : keyMem s r.station_id d <;> simp [hk] at h

/-- An integrity-error attempt on a record with a non-null date means its key
was already stored. -/
theorem dbAttempt_integrityError_inv {s : Store} {r : Record} {d : CalDate}
    (hd : r.date = some d) (h : dbAttempt s r = DbResult.integrityError) :
    keyMem s r.station_id d := by
  unfold dbAttempt at h
  rw [hd] at h
  by_cases hk : keyMem s r.station_id d
  · exact hk
  · simp [hk] at h

/-- Key presence is preserved by appending rows. -/
theorem keyMem_append_left {s : Store} {sid : String} {d : CalDate}
    (h : keyMem s sid d) (ext : Store) : keyMem (s ++ ext) sid d := by
  obtain ⟨row, hrow, hs, hd⟩ := h
  exact ⟨row, List.mem_append_left ext hrow, hs, hd⟩

/-- When every record of the batch has a non-null date, the loading loop
finishes without a fatal error. -/
theorem loadRecords_ok_of_valid (rs : List Record) :
    ∀ (s : Store) (ing dup : Nat), (∀ r ∈ rs, r.date ≠ none) →
      ∃ s2 a b, loadRecords s ing dup rs = Except.ok (s2, a, b) := by
  induction rs with
  | nil => intro s ing dup _; exact ⟨s, ing, dup, rfl⟩
  | cons r rs ih =>
    intro s ing dup hval
    have hrest : ∀ r2 ∈ rs, r2.date ≠ none :=
      fun r2 h2 => hval r2 (List.mem_cons_of_mem r h2)
    cases hA : dbAttempt s r with
    | ok s2 =>
      obtain ⟨s3, a, b, h3⟩ := ih s2 (ing + 1) dup hrest
      exact ⟨s3, a, b, by simp only [loadRecords, hA]; exact h3⟩
    | integrityError =>
      obtain ⟨s3, a, b, h3⟩ := ih s ing (dup + 1) hrest
      exact ⟨s3, a, b, by simp only [loadRecords, hA]; exact h3⟩
    | fatal msg =>
      exact absurd (dbAttempt_fatal_inv hA) (hval r (List.mem_cons_self r rs))

/-- On a completed load the loader only ever appended rows to the store. -/
theorem loadRecords_ok_prefix (rs : List Record) :
    ∀ (s : Store) (ing dup : Nat) (s2 : Store) (a b : Nat),
      loadRecords s ing dup rs = Except.ok (s2, a, b) → ∃ ext, s2 = s ++ ext := by
  induction rs with
  | nil =>
    intro s ing dup s2 a b h
    simp only [loadRecords, Except.ok.injEq, Prod.mk.injEq] at h
    exact ⟨[], by rw [← h.1]; simp⟩
  | cons r rs ih =>
    intro s ing dup s2 a b h
    cases hA : dbAttempt s r with
    | ok s1 =>
      simp only [loadRecords, hA] at h
      obtain ⟨d, hd, hk, hs1⟩ := dbAttempt_eq_ok hA
      obtain ⟨ext, hext⟩ := ih s1 (ing + 1) dup s2 a b h
      exact ⟨toStoredRow r d :: ext, by rw [hext, hs1]; simp⟩
    | integrityError =>
      simp only [loadRecords, hA] at h
      exact ih s ing (dup + 1) s2 a b h
    | fatal msg =>
      simp only [loadRecords, hA] at h
      exact Except.noConfusion h

/-- Key presence is preserved across a completed load. -/
theorem keyMem_loadRecords_ok {rs : List Record} {s : Store} {ing dup : Nat}
    {s2 : Store} {a b : Nat} (h : loadRecords s ing dup rs = Except.ok (s2, a, b))
    {sid : String} {d : CalDate} (hk : keyMem s sid d) : keyMem s2 sid d := by
  obtain ⟨ext, hext⟩ := loadRecords_ok_prefix rs s ing dup s2 a b h
  rw [hext]
  exact keyMem_append_left hk ext

/-- After a completed load, the key of every processed record with a non-null
date is present in the store (it was either inserted or already there). -/
theorem loadRecords_ok_key_present (rs : List Record) :
    ∀ (s : Store) (ing dup : Nat) (s2 : Store) (a b : Nat),
      loadRecords s ing dup rs = Except.ok (s2, a, b) →
      ∀ r ∈ rs, ∀ d, r.date = some d → keyMem s2 r.station_id d := by
  induction rs with
  | nil => intro s ing dup s2 a b _ r hr; cases hr
  | cons r0 rs ih =>
    intro s ing dup s2 a b h r hr d hd
    rcases List.mem_cons.1 hr with rfl | hr2
    · cases hA : dbAttempt s r with
      | ok s1 =>
        simp only [loadRecords, hA] at h
        obtain ⟨d2, hd2, hk2, hs1⟩ := dbAttempt_eq_ok hA
        rw [hd] at hd2
        cases hd2
        have hk : keyMem s1 r.station_id d := by
          rw [hs1]
          exact ⟨toStoredRow r d, by simp, rfl, rfl⟩
        exact keyMem_loadRecords_ok h hk
      | integrityError =>
        simp only [loadRecords, hA] at h
        exact keyMem_loadRecords_ok h (dbAttempt_integrityError_inv hd hA)
      | fatal msg =>
        simp only [loadRecords, hA] at h
        exact Except.noConfusion h
    · cases hA : dbAttempt s r0 with
      | ok s1 =>
        simp only [loadRecords, hA] at h
        exact ih s1 (ing + 1) dup s2 a b h r hr2 d hd
      | integrityError =>
        simp only [loadRecords, hA] at h
        exact ih s ing (dup + 1) s2 a b h r hr2 d hd
      | fatal msg =>
        simp only [loadRecords, hA] at h
        exact Except.noConfusion h

/-- Counter conservation of a completed load: every processed record bumps
exactly one of the two counters. -/
theorem loadRecords_ok_conservation (rs : List Record) :
    ∀ (s : Store) (ing dup : Nat) (s2 : Store) (a b : Nat),
      loadRecords s ing dup rs = Except.ok (s2, a, b) →
      a + b = ing + dup + rs.length := by
  induction rs with
  | nil =>
    intro s ing dup s2 a b h
    simp only [loadRecords, Except.ok.injEq, Prod.mk.injEq] at h
    obtain ⟨_, h2, h3⟩ := h
    simp only [List.length_nil]
    omega
  | cons r rs ih =>
    intro s ing dup s2 a b h
    cases hA : dbAttempt s r with
    | ok s1 =>
      simp only [loadRecords, hA] at h
      have := ih s1 (ing + 1) dup s2 a b h
      simp only [List.length_cons]
      omega
    | integrityError =>
      simp only [loadRecords, hA] at h
      have := ih s ing (dup + 1) s2 a b h
      simp only [List.length_cons]
      omega
    | fatal msg =>
      simp only [loadRecords, hA] at h
      exact Except.noConfusion h

/-- When every record of the batch carries a date whose key is already in the
store, the loader completes, leaves the store unchanged and counts every
record as a duplicate. -/
theorem loadRecords_all_conflict (rs : List Record) :
    ∀ (s : Store) (ing dup : Nat),
      (∀ r ∈ rs, ∃ d, r.date = some d ∧ keyMem s r.station_id d) →
      loadRecords s ing dup rs = Except.ok (s, ing, dup + rs.length) := by
  induction rs with
  | nil => intro s ing dup _; simp [loadRecords]
  | cons r rs ih =>
    intro s ing dup hall
    obtain ⟨d, hd, hk⟩ := hall r (List.mem_cons_self r rs)
    have hA : dbAttempt s r = DbResult.integrityError := dbAttempt_eq_integrityError hd hk
    simp only [loadRecords, hA, List.length_cons]
    rw [ih s ing (dup + 1) (fun r2 h2 => hall r2 (List.mem_cons_of_mem r h2))]
    have harith : dup + 1 + rs.length = dup + (rs.length + 1) := by omega
    rw [harith]

/-- A file all of whose parsed records have valid dates loads to completion. -/
theorem ingestFile_ok_of_valid (s : Store) (f : SourceFile)
    (hval : ∀ r ∈ parse_weather_data f, r.date ≠ none) :
    ∃ s1 c d, ingestFile s f = Except.ok (s1, c, d) :=
  loadRecords_ok_of_valid (parse_weather_data f) s 0 0 hval

/-- Step equation of the file loop when a file loads to completion. -/
theorem runFiles_cons_ok {s : Store} {f : SourceFile} {s1 : Store} {c d : Nat}
    (h : ingestFile s f = Except.ok (s1, c, d)) (fs : List SourceFile) :
    runFiles s (f :: fs) = accumulate c d (runFiles s1 fs) := by
  show (match ingestFile s f with
    | Except.error e => Except.error e
    | Except.ok (s1, c, d) => accumulate c d (runFiles s1 fs)) =
      accumulate c d (runFiles s1 fs)
  rw [h]

/-- Step equation of the per-file count log when a file loads to
completion. -/
theorem fileCounts_cons_ok {s : Store} {f : SourceFile} {s1 : Store} {c d : Nat}
    (h : ingestFile s f = Except.ok (s1, c, d)) (fs : List SourceFile) :
    fileCounts s (f :: fs) = (c, d) :: fileCounts s1 fs := by
  show (match ingestFile s f with
    | Except.ok (s1, c, d) => (c, d) :: fileCounts s1 fs
    | Except.error _ => []) = (c, d) :: fileCounts s1 fs
  rw [h]

/-- Step equation of the fallible run when a readable file loads to
completion. -/
theorem ingest_data_run_cons_ok {s : Store} {f : SourceFile} {s1 : Store} {c d : Nat}
    (h : ingestFile s f = Except.ok (s1, c, d)) (rest : List FileInput) :
    ingest_data_run s (FileInput.good f :: rest) =
      accumulate c d (ingest_data_run s1 rest) := by
  show (match ingestFile s f with
    | Except.error e => Except.error e
    | Except.ok (s1, c, d) => accumulate c d (ingest_data_run s1 rest)) =
      accumulate c d (ingest_data_run s1 rest)
  rw [h]

/-! Helper lemmas about the SQL aggregates, the statistics session and the
grouping. -/

/-- AVG is null exactly when every input value is null. -/
theorem sqlAvg_eq_none_iff (vs : List (Option ℚ)) :
    sqlAvg vs = none ↔ ∀ v ∈ vs, v = none := by
  have h2 : vs.filterMap id = [] ↔ ∀ v ∈ vs, v = none := by
    rw [List.filterMap_eq_nil_iff]; simp
  rw [← h2]
  unfold sqlAvg
  by_cases h : vs.filterMap id = [] <;> simp [h]

/-- AVG over a column with at least one non-null value is the mean of the
non-null values. -/
theorem sqlAvg_eq_some {vs : List (Option ℚ)} (h : vs.filterMap id ≠ []) :
    sqlAvg vs = some ((vs.filterMap id).sum / (vs.filterMap id).length) := by
  unfold sqlAvg
  simp [h]

/-- SUM is null exactly when every input value is null. -/
theorem sqlSum_eq_none_iff (vs : List (Option ℚ)) :
    sqlSum vs = none ↔ ∀ v ∈ vs, v = none := by
  have h2 : vs.filterMap id = [] ↔ ∀ v ∈ vs, v = none := by
    rw [List.filterMap_eq_nil_iff]; simp
  rw [← h2]
  unfold sqlSum
  by_cases h : vs.filterMap id = [] <;> simp [h]

/-- SUM over a column with at least one non-null value is the sum of the
non-null values. -/
theorem sqlSum_eq_some {vs : List (Option ℚ)} (h : vs.filterMap id ≠ []) :
    sqlSum vs = some (vs.filterMap id).sum := by
  unfold sqlSum
  simp [h]

/-- Adding rows to the session never changes the committed rows. -/
theorem foldl_sessionAdd_committed (rows : List StatRow) :
    ∀ sess : StatSession, (rows.foldl sessionAdd sess).committed = sess.committed := by
  induction rows with
  | nil => intro sess; rfl
  | cons r rows ih => intro sess; rw [List.foldl_cons, ih]; rfl

/-- Adding rows to the session appends them to the pending rows. -/
theorem foldl_sessionAdd_pending (rows : List StatRow) :
    ∀ sess : StatSession, (rows.foldl sessionAdd sess).pending = sess.pending ++ rows := by
  induction rows with
  | nil => intro sess; simp
  | cons r rows ih => intro sess; rw [List.foldl_cons, ih]; simp [sessionAdd]

/-- The key of the statistics row built for a group is that group key. -/
theorem statKey_mkStatRow (s : Store) (k : String × Nat) :
    statKey (mkStatRow s k) = k := rfl

/-- The keys of the query results are exactly the group keys. -/
theorem map_statKey_computeStats (s : Store) :
    (computeStats s).map statKey = groupKeys s := by
  unfold computeStats
  rw [List.map_map]
  have h : ∀ k ∈ groupKeys s, (statKey ∘ mkStatRow s) k = id k := fun k _ => rfl
  rw [List.map_congr_left h, List.map_id]

/-- The group keys carry no duplicate. -/
theorem groupKeys_nodup (s : Store) : (groupKeys s).Nodup :=
  List.nodup_dedup _

/-! Claim theorems. -/

/-- Claim C1, counterexample: for the file `fDup`, whose two lines carry the
same `(station_id, date)` key, the first ingestion into an empty store
ingests 1 record and finds 1 duplicate, while the second run over the
resulting store counts 2 duplicates; the second run's duplicate count (2)
therefore differs from the first run's ingested count (1), refuting the
claimed equality (the no-new-rows part holds: the store is unchanged). -/
theorem ingest_twice_count_cex :
    ingestFile [] fDup =
      Except.ok ([⟨"ST", ⟨2003, 1, 1⟩, none, none, none⟩], 1, 1) ∧
    ingestFile [⟨"ST", ⟨2003, 1, 1⟩, none, none, none⟩] fDup =
      Except.ok ([⟨"ST", ⟨2003, 1, 1⟩, none, none, none⟩], 0, 2) ∧
    (2 : Nat) ≠ 1 :=
  ⟨rfl, rfl, by decide⟩

/-- Claim C1 (amended): for a file all of whose parsed records carry valid
dates (an invalid date would abort the run with an uncaught DataError
instead), the first ingestion completes, and re-ingesting the file against
the resulting store completes with the very same store — no new rows, no
changed row — ingesting nothing; the second run's duplicate count equals the
first run's ingested count plus the first run's duplicate count (hence equals
the first run's ingested count exactly when the first run found no
duplicates). -/
theorem ingest_twice_idempotent (s : Store) (f : SourceFile)
    (hval : ∀ r ∈ parse_weather_data f, r.date ≠ none) :
    ∃ s1 ing dup, ingestFile s f = Except.ok (s1, ing, dup) ∧
      ingestFile s1 f = Except.ok (s1, 0, ing + dup) := by
  obtain ⟨s1, ing, dup, h1⟩ := loadRecords_ok_of_valid (parse_weather_data f) s 0 0 hval
  refine ⟨s1, ing, dup, h1, ?_⟩
  have hall : ∀ r ∈ parse_weather_data f, ∃ d, r.date = some d ∧ keyMem s1 r.station_id d := by
    intro r hr
    cases hd : r.date with
    | none => exact absurd hd (hval r hr)
    | some d =>
      exact ⟨d, rfl,
        loadRecords_ok_key_present (parse_weather_data f) s 0 0 s1 ing dup h1 r hr d hd⟩
  have h2 := loadRecords_all_conflict (parse_weather_data f) s1 0 0 hall
  have hc := loadRecords_ok_conservation (parse_weather_data f) s 0 0 s1 ing dup h1
  show loadRecords s1 0 0 (parse_weather_data f) = Except.ok (s1, 0, ing + dup)
  rw [h2]
  have harith : 0 + (parse_weather_data f).length = ing + dup := by omega
  rw [harith]

/-- Witness for the amended claim C1 at the concrete file `fDup` over the
empty store. -/
theorem ingest_twice_idempotent_witness :
    ∃ s1 ing dup, ingestFile [] fDup = Except.ok (s1, ing, dup) ∧
      ingestFile s1 fDup = Except.ok (s1, 0, ing + dup) :=
  ingest_twice_idempotent [] fDup (by decide)

/-- Claim C2, counterexample: for the file `fMix`, whose first line has an
unparseable date and whose second line is valid, the pipeline neither drops
the row at parse time (the parser emits 2 records, the first with a null
date) nor counts a parse failure and continues: the NaT insert raises an
uncaught DataError, the run aborts with nothing persisted, the valid line is
never attempted, and no counter of any kind is produced for the file. -/
theorem parse_failure_policy_cex :
    (parse_weather_data fMix).length = 2 ∧
    ingestFile [] fMix = Except.error ("DataError", []) ∧
    ¬ ∃ out, ingestFile [] fMix = Except.ok out := by
  refine ⟨by decide, rfl, ?_⟩
  rintro ⟨out, hout⟩
  have hred : ingestFile [] fMix = Except.error ("DataError", ([] : Store)) := rfl
  rw [hred] at hout
  exact Except.noConfusion hout

/-- Claim C2 (amended): a line whose date does not parse is emitted by the
parser with a null date, and at load time its insert raises an uncaught
DataError that aborts the ingestion run at that record: the record is never
persisted and never counted (there is no parse-failure counter, and the
duplicate counter is not bumped either), the remaining lines of the file are
not attempted, and only the rows committed before it remain stored — for a
file whose first line is the invalid one, the store is exactly as before the
file. -/
theorem invalid_date_aborts_file (st : Store) (f : SourceFile)
    (l1 : RawLine) (rest : List RawLine) (hlines : f.lines = l1 :: rest)
    (hbad : parseYYYYMMDD l1.dateField = none) :
    ingestFile st f = Except.error ("DataError", st) := by
  have hA : dbAttempt st (cleanLine (stationId f.name) l1) = DbResult.fatal "DataError" :=
    dbAttempt_eq_fatal hbad
  show loadRecords st 0 0 (parse_weather_data f) = Except.error ("DataError", st)
  simp only [parse_weather_data, hlines, List.map_cons]
  simp only [loadRecords, hA]

/-- Witness for the amended claim C2 at the concrete file `fMix` over the
empty store. -/
theorem invalid_date_aborts_file_witness :
    ingestFile [] fMix = Except.error ("DataError", []) :=
  invalid_date_aborts_file [] fMix lBad [lGood] rfl (by decide)

/-- Claim C3: for every input line, each of the three numeric fields is
cleaned independently: the sentinel raw value -9999 becomes null, any other
raw value v becomes exactly v / 10, sign preserved. -/
theorem sentinel_and_scaling (f : SourceFile) (i : Nat) (l : RawLine)
    (h : f.lines[i]? = some l) :
    ∃ r, (parse_weather_data f)[i]? = some r ∧
      r.max_temp = (if l.maxTemp = -9999 then none else some ((l.maxTemp : ℚ) / 10)) ∧
      r.min_temp = (if l.minTemp = -9999 then none else some ((l.minTemp : ℚ) / 10)) ∧
      r.precipitation = (if l.precip = -9999 then none else some ((l.precip : ℚ) / 10)) := by
  refine ⟨cleanLine (stationId f.name) l, ?_, ?_, ?_, ?_⟩
  · simp only [parse_weather_data]
    rw [List.getElem?_map, h]
    rfl
  · exact scaleTenths_replaceSentinel l.maxTemp
  · exact scaleTenths_replaceSentinel l.minTemp
  · exact scaleTenths_replaceSentinel l.precip

/-- Witness for claim C3 at the concrete line `lVals` of `fVals`: raw values
211, -9999 and 5. -/
theorem sentinel_and_scaling_witness :
    fVals.lines[0]? = some lVals ∧
    ∃ r, (parse_weather_data fVals)[0]? = some r ∧
      r.max_temp = (if lVals.maxTemp = -9999 then none else some ((lVals.maxTemp : ℚ) / 10)) ∧
      r.min_temp = (if lVals.minTemp = -9999 then none else some ((lVals.minTemp : ℚ) / 10)) ∧
      r.precipitation = (if lVals.precip = -9999 then none else some ((lVals.precip : ℚ) / 10)) :=
  ⟨rfl, sentinel_and_scaling fVals 0 lVals rfl⟩

/-- Claim C5: the loader's per-record exception handling distinguishes the
gateway outcomes: a uniqueness/integrity conflict is rolled back to the
unchanged store and counted as a duplicate (not an error), while any other
persistence failure propagates to the caller, and a successful commit keeps
the new store and counts the record as ingested. -/
theorem conflict_rollback_fatal_propagates (st : Store) (ing dup : Nat) :
    loadStep st ing dup DbResult.integrityError = Except.ok (st, ing, dup + 1) ∧
    (∀ msg, loadStep st ing dup (DbResult.fatal msg) = Except.error msg) ∧
    (∀ s2, loadStep st ing dup (DbResult.ok s2) = Except.ok (s2, ing + 1, dup)) :=
  ⟨rfl, fun _ => rfl, fun _ => rfl⟩

/-- Claim C9, counterexample: for the file `fMix2`, whose valid first line is
followed by an invalid-date line, the loader commits the first row and then
aborts the run with an uncaught DataError at the second record: no
`(ingested, duplicate)` pair is ever produced for the file, so its two parsed
records are not each counted exactly once and no per-file count feeds any
total. -/
theorem counter_conservation_cex :
    (parse_weather_data fMix2).length = 2 ∧
    ingestFile [] fMix2 =
      Except.error ("DataError", [⟨"ST", ⟨2003, 1, 1⟩, none, none, none⟩]) ∧
    ¬ ∃ out, ingestFile [] fMix2 = Except.ok out := by
  refine ⟨by decide, rfl, ?_⟩
  rintro ⟨out, hout⟩
  have hred : ingestFile [] fMix2 =
      Except.error ("DataError", [⟨"ST", ⟨2003, 1, 1⟩, none, none, none⟩]) := rfl
  rw [hred] at hout
  exact Except.noConfusion hout

/-- Claim C9 (amended): counter conservation holds for the files the run
completes: when every parsed record of a file has a valid date (otherwise the
run aborts with the record counted by neither counter), the file's load
completes and its ingested plus duplicate count equals the number of parsed
records; when every file of a run is such, the run completes and its totals
are the sums of the per-file counts. -/
theorem counter_conservation :
    (∀ (s : Store) (f : SourceFile), (∀ r ∈ parse_weather_data f, r.date ≠ none) →
        ∃ s1 ing dup, ingestFile s f = Except.ok (s1, ing, dup) ∧
          ing + dup = (parse_weather_data f).length) ∧
    (∀ (s : Store) (files : List SourceFile),
        (∀ f ∈ files, ∀ r ∈ parse_weather_data f, r.date ≠ none) →
        ∃ s2 tc td, runFiles s files = Except.ok (s2, tc, td) ∧
          tc = ((fileCounts s files).map Prod.fst).sum ∧
          td = ((fileCounts s files).map Prod.snd).sum ∧
          tc + td = (files.map (fun f => (parse_weather_data f).length)).sum) := by
  have hper : ∀ (s : Store) (f : SourceFile), (∀ r ∈ parse_weather_data f, r.date ≠ none) →
      ∃ s1 ing dup, ingestFile s f = Except.ok (s1, ing, dup) ∧
        ing + dup = (parse_weather_data f).length := by
    intro s f hval
    obtain ⟨s1, ing, dup, h1⟩ := ingestFile_ok_of_valid s f hval
    refine ⟨s1, ing, dup, h1, ?_⟩
    have hc := loadRecords_ok_conservation (parse_weather_data f) s 0 0 s1 ing dup h1
    omega
  refine ⟨hper, ?_⟩
  intro s files
  induction files generalizing s with
  | nil => intro _; exact ⟨s, 0, 0, rfl, rfl, rfl, rfl⟩
  | cons f fs ih =>
    intro hval
    obtain ⟨s1, c, d, h1, hcd⟩ := hper s f (hval f (List.mem_cons_self f fs))
    obtain ⟨s2, tc, td, h2, h3, h4, h5⟩ :=
      ih s1 (fun g hg => hval g (List.mem_cons_of_mem f hg))
    refine ⟨s2, c + tc, d + td, ?_, ?_, ?_, ?_⟩
    · simp only [runFiles_cons_ok h1, h2, accumulate]
    · simp only [fileCounts_cons_ok h1, List.map_cons, List.sum_cons]
      omega
    · simp only [fileCounts_cons_ok h1, List.map_cons, List.sum_cons]
      omega
    · simp only [List.map_cons, List.sum_cons]
      omega

/-- Witness for the amended claim C9 at the file `fDup` and the one-file run
over it. -/
theorem counter_conservation_witness :
    (∃ s1 ing dup, ingestFile [] fDup = Except.ok (s1, ing, dup) ∧
      ing + dup = (parse_weather_data fDup).length) ∧
    (∃ s2 tc td, runFiles [] [fDup] = Except.ok (s2, tc, td) ∧
      tc = ((fileCounts [] [fDup]).map Prod.fst).sum ∧
      td = ((fileCounts [] [fDup]).map Prod.snd).sum ∧
      tc + td = ([fDup].map (fun f => (parse_weather_data f).length)).sum) :=
  ⟨counter_conservation.1 [] fDup (by decide),
   counter_conservation.2 [] [fDup] (by decide)⟩

/-- Claim C10: the parser emits exactly one cleaned record per input line, in
line order; a line whose date fails to parse still yields a record, whose
date is the (then null) decoded date, and that record is part of the sequence
handed to the loader. -/
theorem parser_emits_every_line (f : SourceFile) :
    (parse_weather_data f).length = f.lines.length ∧
    ∀ (i : Nat) (l : RawLine), f.lines[i]? = some l →
      (parse_weather_data f)[i]? = some (cleanLine (stationId f.name) l) ∧
      (cleanLine (stationId f.name) l).date = parseYYYYMMDD l.dateField := by
  constructor
  · simp [parse_weather_data]
  · intro i l h
    constructor
    · simp only [parse_weather_data]
      rw [List.getElem?_map, h]
      rfl
    · rfl

/-- Witness for claim C10 at the invalid-date line of `fMix`: the record is
emitted at the same index with a null date. -/
theorem parser_emits_every_line_witness :
    fMix.lines[0]? = some lBad ∧
    (parse_weather_data fMix)[0]? = some (cleanLine (stationId fMix.name) lBad) ∧
    (cleanLine (stationId fMix.name) lBad).date = none := by
  have h := (parser_emits_every_line fMix).2 0 lBad rfl
  exact ⟨rfl, h.1, h.2.trans (by decide)⟩

/-- Claim C4: for every station-year group of the store, the query's row
averages each temperature column over exactly the non-null values of the
group (null exactly when every value of the group is null, never treating
null as 0) and sums the non-null precipitation values (null exactly when all
are null). -/
theorem aggregate_null_semantics (obs : Store) (k : String × Nat)
    (h : k ∈ groupKeys obs) :
    ∃ row ∈ computeStats obs, row.station_id = k.1 ∧ row.year = k.2 ∧
      (row.avg_max_temp = none ↔ ∀ r ∈ groupRows obs k, r.max_temp = none) ∧
      ((maxCol obs k).filterMap id ≠ [] →
        row.avg_max_temp = some (((maxCol obs k).filterMap id).sum /
          ((maxCol obs k).filterMap id).length)) ∧
      (row.avg_min_temp = none ↔ ∀ r ∈ groupRows obs k, r.min_temp = none) ∧
      ((minCol obs k).filterMap id ≠ [] →
        row.avg_min_temp = some (((minCol obs k).filterMap id).sum /
          ((minCol obs k).filterMap id).length)) ∧
      (row.total_precipitation = none ↔ ∀ r ∈ groupRows obs k, r.precipitation = none) ∧
      ((precipCol obs k).filterMap id ≠ [] →
        row.total_precipitation = some ((precipCol obs k).filterMap id).sum) := by
  refine ⟨mkStatRow obs k, List.mem_map_of_mem _ h, rfl, rfl, ?_, ?_, ?_, ?_, ?_, ?_⟩
  · rw [show (mkStatRow obs k).avg_max_temp = sqlAvg (maxCol obs k) from rfl,
      sqlAvg_eq_none_iff]
    simp [maxCol]
  · intro hne
    exact sqlAvg_eq_some hne
  · rw [show (mkStatRow obs k).avg_min_temp = sqlAvg (minCol obs k) from rfl,
      sqlAvg_eq_none_iff]
    simp [minCol]
  · intro hne
    exact sqlAvg_eq_some hne
  · rw [show (mkStatRow obs k).total_precipitation = sqlSum (precipCol obs k) from rfl,
      sqlSum_eq_none_iff]
    simp [precipCol]
  · intro hne
    exact sqlSum_eq_some hne

/-- Witness for claim C4 at the concrete store `obs0`, whose single group has
max-temp column `[20, null, 30]` and an all-null precipitation column. -/
theorem aggregate_null_semantics_witness :
    ("S", 2000) ∈ groupKeys obs0 ∧
    ∃ row ∈ computeStats obs0, row.station_id = ("S", 2000).1 ∧ row.year = ("S", 2000).2 ∧
      (row.avg_max_temp = none ↔ ∀ r ∈ groupRows obs0 ("S", 2000), r.max_temp = none) ∧
      ((maxCol obs0 ("S", 2000)).filterMap id ≠ [] →
        row.avg_max_temp = some (((maxCol obs0 ("S", 2000)).filterMap id).sum /
          ((maxCol obs0 ("S", 2000)).filterMap id).length)) ∧
      (row.avg_min_temp = none ↔ ∀ r ∈ groupRows obs0 ("S", 2000), r.min_temp = none) ∧
      ((minCol obs0 ("S", 2000)).filterMap id ≠ [] →
        row.avg_min_temp = some (((minCol obs0 ("S", 2000)).filterMap id).sum /
          ((minCol obs0 ("S", 2000)).filterMap id).length)) ∧
      (row.total_precipitation = none ↔
        ∀ r ∈ groupRows obs0 ("S", 2000), r.precipitation = none) ∧
      ((precipCol obs0 ("S", 2000)).filterMap id ≠ [] →
        row.total_precipitation = some ((precipCol obs0 ("S", 2000)).filterMap id).sum) :=
  ⟨by decide, aggregate_null_semantics obs0 ("S", 2000) (by decide)⟩

/-- Claim C6: if any exception is raised during the aggregation's computation
or write phase (before the final commit, or at the commit itself), the
handler rolls the session back: no statistics row is committed by the run and
the observation store is untouched. -/
theorem aggregation_all_or_nothing (obs : Store) (sess : StatSession)
    (fault : Option Nat) (commitFault : Bool)
    (hfail : (∃ k, fault = some k ∧ k < (computeStats obs).length) ∨ commitFault = true) :
    (calculate_statistics obs sess fault commitFault).1 = obs ∧
    (calculate_statistics obs sess fault commitFault).2.committed = sess.committed ∧
    (calculate_statistics obs sess fault commitFault).2.pending = [] := by
  cases fault with
  | none =>
    rcases hfail with ⟨k, hk, _⟩ | hcf
    · cases hk
    · subst hcf
      simp [calculate_statistics, addRows, sessionRollback, foldl_sessionAdd_committed]
  | some k =>
    by_cases hk : k < (computeStats obs).length
    · simp [calculate_statistics, addRows, hk, sessionRollback, foldl_sessionAdd_committed]
    · rcases hfail with ⟨k2, hk2, hlt⟩ | hcf
      · cases hk2
        exact absurd hlt hk
      · subst hcf
        simp [calculate_statistics, addRows, hk, sessionRollback, foldl_sessionAdd_committed]

/-- Witness for claim C6 at the store `obs0` with an empty session and a
fault before the first group's row is added. -/
theorem aggregation_all_or_nothing_witness :
    ((∃ k, (some 0 : Option Nat) = some k ∧ k < (computeStats obs0).length) ∨
      false = true) ∧
    ((calculate_statistics obs0 ⟨[], []⟩ (some 0) false).1 = obs0 ∧
      (calculate_statistics obs0 ⟨[], []⟩ (some 0) false).2.committed =
        (⟨[], []⟩ : StatSession).committed ∧
      (calculate_statistics obs0 ⟨[], []⟩ (some 0) false).2.pending = []) :=
  ⟨Or.inl ⟨0, rfl, by decide⟩,
    aggregation_all_or_nothing obs0 ⟨[], []⟩ (some 0) false
      (Or.inl ⟨0, rfl, by decide⟩)⟩

/-- Claim C7: running the aggregation twice over an unchanged observation set
without clearing prior rows appends the full result set again: prior rows are
not replaced, and each `(station_id, year)` group contributes exactly one row
per run, so after the second run each group's rows are duplicated. -/
theorem stats_rerun_appends_duplicates (obs : Store) (sess : StatSession)
    (hclean : sess.pending = []) :
    (calculate_statistics obs
        (calculate_statistics obs sess none false).2 none false).2.committed =
      sess.committed ++ computeStats obs ++ computeStats obs ∧
    (computeStats obs).map statKey = groupKeys obs ∧ (groupKeys obs).Nodup := by
  constructor
  · have h1 : (calculate_statistics obs sess none false).2 =
        ⟨sess.committed ++ computeStats obs, []⟩ := by
      simp [calculate_statistics, addRows, sessionCommit, foldl_sessionAdd_committed,
        foldl_sessionAdd_pending, hclean]
    rw [h1]
    simp [calculate_statistics, addRows, sessionCommit, foldl_sessionAdd_committed,
      foldl_sessionAdd_pending, List.append_assoc]
  · exact ⟨map_statKey_computeStats obs, groupKeys_nodup obs⟩

/-- Witness for claim C7 at the store `obs0` with an empty session. -/
theorem stats_rerun_appends_duplicates_witness :
    (⟨[], []⟩ : StatSession).pending = [] ∧
    ((calculate_statistics obs0
        (calculate_statistics obs0 ⟨[], []⟩ none false).2 none false).2.committed =
      (⟨[], []⟩ : StatSession).committed ++ computeStats obs0 ++ computeStats obs0 ∧
    (computeStats obs0).map statKey = groupKeys obs0 ∧ (groupKeys obs0).Nodup) :=
  ⟨rfl, stats_rerun_appends_duplicates obs0 ⟨[], []⟩ rfl⟩

/-- Claim C8, counterexample: the file loop has no per-file exception
handler.  First conjunct: a failure reading the first file aborts the run and
the readable second file is never attempted.  Second conjunct: a file that
reads and parses fine but contains an invalid-date line also aborts the whole
run at its NaT insert, again skipping the second file.  Third conjunct: the
second file alone would ingest one record, so in both aborted runs a
remaining file was prevented from being attempted by a failure that is not a
fatal persistence failure of the spec's carve-out. -/
theorem file_failure_aborts_run_cex :
    ingest_data_run [] [FileInput.bad "US1.txt", FileInput.good fOne] =
      Except.error ("US1.txt", []) ∧
    ingest_data_run [] [FileInput.good fMix, FileInput.good fOne] =
      Except.error ("DataError", []) ∧
    ingest_data_run [] [FileInput.good fOne] =
      Except.ok ([⟨"ST1", ⟨2003, 1, 1⟩, none, none, none⟩], 1, 0) :=
  ⟨rfl, rfl, rfl⟩

/-- Claim C8 (amended): the only failures the file loop survives are the
per-record integrity errors handled inside the loader: when every file reads
without raising and every parsed record has a valid date, the run attempts
every file to completion (duplicates never abort it) and agrees with the file
loop over the underlying files; but any uncaught exception in one file's
processing — a read failure, the DataError of an invalid date, a fatal
persistence failure — aborts the whole run and skips the remaining files. -/
theorem run_completes_when_files_clean (s : Store) (inputs : List FileInput)
    (hread : ∀ i ∈ inputs, i.readsOk)
    (hval : ∀ i ∈ inputs, ∀ r ∈ parse_weather_data i.file, r.date ≠ none) :
    ∃ s2 tc td,
      ingest_data_run s inputs = Except.ok (s2, tc, td) ∧
      runFiles s (inputs.map FileInput.file) = Except.ok (s2, tc, td) := by
  induction inputs generalizing s with
  | nil => exact ⟨s, 0, 0, rfl, rfl⟩
  | cons i rest ih =>
    cases i with
    | bad name => exact absurd (hread _ (List.mem_cons_self _ _)) (fun hc => hc)
    | good f =>
      obtain ⟨s1, c, d, h1⟩ := ingestFile_ok_of_valid s f
        (hval (FileInput.good f) (List.mem_cons_self _ _))
      obtain ⟨s2, tc, td, h2, h3⟩ := ih s1
        (fun j hj => hread j (List.mem_cons_of_mem _ hj))
        (fun j hj => hval j (List.mem_cons_of_mem _ hj))
      refine ⟨s2, c + tc, d + td, ?_, ?_⟩
      · simp only [ingest_data_run_cons_ok h1, h2, accumulate]
      · simp only [List.map_cons, FileInput.file, runFiles_cons_ok h1, h3, accumulate]

/-- Witness for the amended claim C8: a run over one readable, valid-dated
file completes with that file's counts and agrees with the file loop. -/
theorem run_completes_when_files_clean_witness :
    ∃ s2 tc td,
      ingest_data_run [] [FileInput.good fOne] = Except.ok (s2, tc, td) ∧
      runFiles [] ([FileInput.good fOne].map FileInput.file) = Except.ok (s2, tc, td) :=
  run_completes_when_files_clean [] [FileInput.good fOne] (by decide) (by decide)

end WeatherPipeline
